import Mathlib

/-!
Shallow embedding of the Solidity contracts of this repository:
`Counter` and `Token` (under `contracts/`) and `TokenVault`.

Solidity 0.8 semantics are modelled over `Nat` with the explicit bound
`UINT256_MAX = 2^256 - 1`: checked arithmetic reverts (returns an error)
on overflow/underflow instead of wrapping.  A reverted call leaves the
contract state unchanged; the `exec*` wrappers below make that rollback
explicit by returning the pre-state together with the error, mirroring
the transaction-executor semantics (commit on success, discard on
failure).

`require(cond, msg)` failures are mapped to the error taxonomy of the
specification: the `incBy` zero-amount guard to `InvalidArgumentError`,
the `dec` zero guard to `UnderflowError`, the `transfer` balance guard
to `InsufficientBalanceError`, and checked-arithmetic panics to
`OverflowError`.
-/

/-- Largest value representable by a Solidity `uint256`. -/
def UINT256_MAX : Nat := 2 ^ 256 - 1

/-- Error taxonomy of the specification, covering every revert reason of
the embedded contracts. -/
inductive EvmError where
  | InvalidArgumentError
  | OverflowError
  | UnderflowError
  | InsufficientBalanceError
deriving DecidableEq, Repr

/-- Checked `uint256` addition: `a + b`, reverting with `OverflowError`
when the mathematical sum exceeds `2^256 - 1` (Solidity 0.8 panic 0x11). -/
def checkedAdd (a b : Nat) : Except EvmError Nat :=
  if a + b ≤ UINT256_MAX then .ok (a + b) else .error .OverflowError

/-- An account address (20-byte identifier, modelled abstractly). -/
abbrev Address := Nat

/-- The single `Increment(uint256 by)` event declared by `Counter`. -/
inductive Event where
  | Increment (amount : Nat)
deriving DecidableEq, Repr

namespace Counter

/-- `function inc() public { x++; emit Increment(1); }` -/
def inc (x : Nat) : Except EvmError (Nat × List Event) :=
  match checkedAdd x 1 with
  | .ok x' => .ok (x', [.Increment 1])
  | .error e => .error e

/-- `function incBy(uint256 by) public`:
`require(by > 0, "incBy: increment should be positive"); x += by;
emit Increment(by);` -/
def incBy (x amount : Nat) : Except EvmError (Nat × List Event) :=
  if amount = 0 then .error .InvalidArgumentError
  else
    match checkedAdd x amount with
    | .ok x' => .ok (x', [.Increment amount])
    | .error e => .error e

/-- `function dec() public { require(x > 0, "dec: counter is zero"); x--; }` -/
def dec (x : Nat) : Except EvmError (Nat × List Event) :=
  if x = 0 then .error .UnderflowError
  else .ok (x - 1, [])

/-- `function setNumber(uint256 _x) public { x = _x; }` -/
def setNumber (_x newX : Nat) : Except EvmError (Nat × List Event) :=
  .ok (newX, [])

/-- Transaction-level run of `inc`: on revert the counter keeps its
pre-state and no event is emitted. -/
def execInc (x : Nat) : Nat × List Event × Option EvmError :=
  match inc x with
  | .ok (x', evs) => (x', evs, none)
  | .error e => (x, [], some e)

/-- Transaction-level run of `incBy`. -/
def execIncBy (x amount : Nat) : Nat × List Event × Option EvmError :=
  match incBy x amount with
  | .ok (x', evs) => (x', evs, none)
  | .error e => (x, [], some e)

/-- Transaction-level run of `dec`. -/
def execDec (x : Nat) : Nat × List Event × Option EvmError :=
  match dec x with
  | .ok (x', evs) => (x', evs, none)
  | .error e => (x, [], some e)

/-- Transaction-level run of `setNumber`. -/
def execSetNumber (x newX : Nat) : Nat × List Event × Option EvmError :=
  match setNumber x newX with
  | .ok (x', evs) => (x', evs, none)
  | .error e => (x, [], some e)

end Counter

/-- Storage of the `Token` contract: `totalSupply` and the
`balanceOf` mapping (absent keys read as zero, as in Solidity). -/
structure TokenState where
  totalSupply : Nat
  balanceOf : Address → Nat

namespace Token

/-- `constructor(uint256 initialSupply)`:
`totalSupply = initialSupply; balanceOf[msg.sender] = initialSupply;` -/
def constructorFn (deployer : Address) (initialSupply : Nat) : TokenState :=
  { totalSupply := initialSupply
    balanceOf := fun a => if a = deployer then initialSupply else 0 }

/-- `function transfer(address to, uint256 amount) public returns (bool)`:
`require(balanceOf[msg.sender] >= amount, "Insufficient balance");
balanceOf[msg.sender] -= amount; balanceOf[to] += amount; return true;`
The debit is checked subtraction (it cannot underflow thanks to the
`require`); the credit is checked addition and reads the map after the
debit, which matters when `to = sender`. -/
def transfer (s : TokenState) (sender toA : Address) (amount : Nat) :
    Except EvmError (TokenState × Bool) :=
  if s.balanceOf sender < amount then .error .InsufficientBalanceError
  else
    let b1 := Function.update s.balanceOf sender (s.balanceOf sender - amount)
    match checkedAdd (b1 toA) amount with
    | .ok credited =>
        .ok ({ s with balanceOf := Function.update b1 toA credited }, true)
    | .error e => .error e

/-- Transaction-level run of `transfer`: on revert the token state is
rolled back and `false` stands for the absent return value. -/
def execTransfer (s : TokenState) (sender toA : Address) (amount : Nat) :
    TokenState × Bool × Option EvmError :=
  match transfer s sender toA amount with
  | .ok (s', r) => (s', r, none)
  | .error e => (s, false, some e)

/-- States of a `Token` instance reachable from its constructor by any
sequence of `transfer` calls (failed calls leave the state unchanged,
so only successful steps matter).  The constructor argument is a
`uint256`, hence bounded. -/
inductive Reachable : TokenState → Prop where
  | init (deployer initialSupply : Nat) (h : initialSupply ≤ UINT256_MAX) :
      Reachable (constructorFn deployer initialSupply)
  | step (s : TokenState) (sender toA : Address) (amount : Nat)
      (s' : TokenState) (r : Bool) (hs : Reachable s)
      (hstep : transfer s sender toA amount = .ok (s', r)) : Reachable s'

end Token

/-- The balances map has finite support and its entries sum to
`totalSupply`. -/
def TokenState.sumInvariant (s : TokenState) : Prop :=
  ∃ S : Finset Address,
    (∀ a, a ∉ S → s.balanceOf a = 0) ∧
    Finset.sum S s.balanceOf = s.totalSupply

/-- Storage of the `TokenVault` contract: the referenced `Token`
instance's state and the `deposits` mapping.  `vaultAddr` is
`address(this)` of the vault. -/
structure VaultState where
  token : TokenState
  deposits : Address → Nat

namespace TokenVault

/-- `function deposit(uint256 amount) public`:
`require(token.balanceOf(msg.sender) >= amount, "Insufficient token balance");
token.transfer(address(this), amount); deposits[msg.sender] += amount;`
Inside the external call `token.transfer`, `msg.sender` is the vault
itself, so the inner transfer runs from `vaultAddr` to itself;
a revert of the inner call propagates. -/
def deposit (vaultAddr : Address) (s : VaultState) (caller : Address)
    (amount : Nat) : Except EvmError VaultState :=
  if s.token.balanceOf caller < amount then .error .InsufficientBalanceError
  else
    match Token.transfer s.token vaultAddr vaultAddr amount with
    | .ok (t', _) =>
        match checkedAdd (s.deposits caller) amount with
        | .ok d' =>
            .ok { token := t', deposits := Function.update s.deposits caller d' }
        | .error e => .error e
    | .error e => .error e

/-- Transaction-level run of `deposit`: rollback on revert. -/
def execDeposit (vaultAddr : Address) (s : VaultState) (caller : Address)
    (amount : Nat) : VaultState × Option EvmError :=
  match deposit vaultAddr s caller amount with
  | .ok s' => (s', none)
  | .error e => (s, some e)

end TokenVault

/-- A transaction against the two deployed contracts: one constructor
per method of `Counter` and of `Token`. -/
inductive Tx where
  | inc
  | incBy (amount : Nat)
  | dec
  | setNumber (x : Nat)
  | transfer (toA : Address) (amount : Nat)
deriving DecidableEq, Repr

/-- Combined storage of the deployed `Counter` and `Token` instances. -/
structure SysState where
  counter : Nat
  token : TokenState

/-- The contract dispatcher: applies one transaction to the system
state, committing on success and rolling back on failure. -/
def execute (s : SysState) (sender : Address) (tx : Tx) :
    SysState × List Event × Option EvmError :=
  match tx with
  | .inc =>
      let (x', evs, err) := Counter.execInc s.counter
      ({ s with counter := x' }, evs, err)
  | .incBy amount =>
      let (x', evs, err) := Counter.execIncBy s.counter amount
      ({ s with counter := x' }, evs, err)
  | .dec =>
      let (x', evs, err) := Counter.execDec s.counter
      ({ s with counter := x' }, evs, err)
  | .setNumber x =>
      let (x', evs, err) := Counter.execSetNumber s.counter x
      ({ s with counter := x' }, evs, err)
  | .transfer toA amount =>
      let (t', _, err) := Token.execTransfer s.token sender toA amount
      ({ s with token := t' }, [], err)

/-! ## Helper lemmas -/

/-- Successful checked addition returns the mathematical sum, which is
in range. -/
theorem checkedAdd_ok {a b c : Nat} (h : checkedAdd a b = .ok c) :
    c = a + b ∧ a + b ≤ UINT256_MAX := by
  unfold checkedAdd at h
  split at h
  · cases h
    exact ⟨rfl, by assumption⟩
  · exact absurd h (by simp)

/-- Checked addition succeeds exactly on in-range sums. -/
theorem checkedAdd_of_le {a b : Nat} (h : a + b ≤ UINT256_MAX) :
    checkedAdd a b = .ok (a + b) := by
  unfold checkedAdd
  simp [h]

/-- Two distinct entries of a finitely supported map are bounded by the
sum of all its entries. -/
theorem pair_le_sum {f : Address → Nat} {S : Finset Address} {a b : Address}
    (hne : a ≠ b) (hz : ∀ x, x ∉ S → f x = 0) :
    f a + f b ≤ Finset.sum S f := by
  have hpair : ({a, b} : Finset Address) ⊆ insert a (insert b S) := by
    intro x hx
    simp only [Finset.mem_insert, Finset.mem_singleton] at hx ⊢
    tauto
  have hS : S ⊆ insert a (insert b S) := by
    intro x hx
    simp [hx]
  calc f a + f b = Finset.sum {a, b} f := (Finset.sum_pair hne).symm
    _ ≤ Finset.sum (insert a (insert b S)) f :=
        Finset.sum_le_sum_of_subset hpair
    _ = Finset.sum S f := by
        refine (Finset.sum_subset hS ?_).symm
        intro x _ hxS
        exact hz x hxS

/-- Checked addition overflows exactly on out-of-range sums. -/
theorem checkedAdd_of_gt {a b : Nat} (h : UINT256_MAX < a + b) :
    checkedAdd a b = .error .OverflowError := by
  unfold checkedAdd
  rw [if_neg (Nat.not_le.mpr h)]

/-- The balances map after the debit statement
`balanceOf[msg.sender] -= amount` of `transfer`. -/
def debitedBal (s : TokenState) (sender : Address) (amount : Nat) :
    Address → Nat :=
  Function.update s.balanceOf sender (s.balanceOf sender - amount)

/-- `transfer` unfolded, with the intermediate map named. -/
theorem transfer_def (s : TokenState) (sender toA : Address) (amount : Nat) :
    Token.transfer s sender toA amount =
      if s.balanceOf sender < amount then .error .InsufficientBalanceError
      else
        match checkedAdd (debitedBal s sender amount toA) amount with
        | .ok credited =>
            .ok ({ s with
                    balanceOf :=
                      Function.update (debitedBal s sender amount) toA
                        credited },
                 true)
        | .error e => .error e := rfl

/-- Exhaustive case analysis of one `transfer` call. -/
theorem transfer_cases (s : TokenState) (sender toA : Address) (amount : Nat) :
    (s.balanceOf sender < amount ∧
      Token.transfer s sender toA amount
        = .error .InsufficientBalanceError) ∨
    (amount ≤ s.balanceOf sender ∧
      ((debitedBal s sender amount toA + amount ≤ UINT256_MAX ∧
        Token.transfer s sender toA amount
          = .ok ({ s with
                    balanceOf :=
                      Function.update (debitedBal s sender amount) toA
                        (debitedBal s sender amount toA + amount) },
                 true)) ∨
      (UINT256_MAX < debitedBal s sender amount toA + amount ∧
        Token.transfer s sender toA amount = .error .OverflowError))) := by
  rcases Nat.lt_or_ge (s.balanceOf sender) amount with hlt | hge
  · exact .inl ⟨hlt, by rw [transfer_def, if_pos hlt]⟩
  · refine .inr ⟨hge, ?_⟩
    rcases le_or_lt (debitedBal s sender amount toA + amount) UINT256_MAX
        with hle | hgt
    · refine .inl ⟨hle, ?_⟩
      rw [transfer_def, if_neg (Nat.not_lt.mpr hge), checkedAdd_of_le hle]
    · refine .inr ⟨hgt, ?_⟩
      rw [transfer_def, if_neg (Nat.not_lt.mpr hge), checkedAdd_of_gt hgt]

/-- Inversion of a successful `transfer`. -/
theorem transfer_ok_inv {s : TokenState} {sender toA : Address} {amount : Nat}
    {s' : TokenState} {r : Bool}
    (h : Token.transfer s sender toA amount = .ok (s', r)) :
    amount ≤ s.balanceOf sender ∧ r = true ∧
    debitedBal s sender amount toA + amount ≤ UINT256_MAX ∧
    s' = { s with
            balanceOf :=
              Function.update (debitedBal s sender amount) toA
                (debitedBal s sender amount toA + amount) } := by
  rcases transfer_cases s sender toA amount with ⟨_, heq⟩ | ⟨hge, hca⟩
  · rw [h] at heq
    exact absurd heq (by simp)
  · rcases hca with ⟨hle, heq⟩ | ⟨_, heq⟩
    · rw [h] at heq
      simp only [Except.ok.injEq, Prod.mk.injEq] at heq
      exact ⟨hge, heq.2, hle, heq.1⟩
    · rw [h] at heq
      exact absurd heq (by simp)

/-- A successful self-transfer returns `true` and leaves every balance
and the total supply unchanged. -/
theorem transfer_self_ok_inv {s : TokenState} {sender : Address}
    {amount : Nat} {s' : TokenState} {r : Bool}
    (h : Token.transfer s sender sender amount = .ok (s', r)) :
    r = true ∧ s'.totalSupply = s.totalSupply ∧
    ∀ a, s'.balanceOf a = s.balanceOf a := by
  obtain ⟨hge, hr, _, hs'⟩ := transfer_ok_inv h
  subst hs'
  refine ⟨hr, rfl, ?_⟩
  intro a
  by_cases ha : a = sender
  · subst ha
    show Function.update (debitedBal s a amount) a _ a = s.balanceOf a
    rw [Function.update_same, debitedBal, Function.update_same,
      Nat.sub_add_cancel hge]
  · show Function.update (debitedBal s sender amount) sender _ a
      = s.balanceOf a
    rw [Function.update_noteq ha, debitedBal, Function.update_noteq ha]

/-- The constructor establishes the sum invariant. -/
theorem sumInv_constructorFn (deployer initialSupply : Nat) :
    (Token.constructorFn deployer initialSupply).sumInvariant := by
  refine ⟨{deployer}, ?_, ?_⟩
  · intro a ha
    simp only [Finset.mem_singleton] at ha
    simp [Token.constructorFn, ha]
  · simp [Token.constructorFn]

/-- The sum invariant only depends on the values of the state. -/
theorem sumInvariant_of_eq {s s' : TokenState}
    (ht : s'.totalSupply = s.totalSupply)
    (hb : ∀ a, s'.balanceOf a = s.balanceOf a)
    (h : s.sumInvariant) : s'.sumInvariant := by
  obtain ⟨S, hz, hsum⟩ := h
  refine ⟨S, fun a ha => (hb a).trans (hz a ha), ?_⟩
  rw [ht, ← hsum]
  exact Finset.sum_congr rfl fun x _ => hb x

/-- A successful `transfer` preserves the sum invariant. -/
theorem transfer_ok_sumInv {s : TokenState} {sender toA : Address}
    {amount : Nat} {s' : TokenState} {r : Bool}
    (hinv : s.sumInvariant)
    (h : Token.transfer s sender toA amount = .ok (s', r)) :
    s'.sumInvariant := by
  by_cases hts : toA = sender
  · subst hts
    exact sumInvariant_of_eq (transfer_self_ok_inv h).2.1
      (transfer_self_ok_inv h).2.2 hinv
  · obtain ⟨hge, _, _, hs'⟩ := transfer_ok_inv h
    obtain ⟨S, hz, hsum⟩ := hinv
    subst hs'
    have hsender1 : sender ∈ insert sender (insert toA S) :=
      Finset.mem_insert_self _ _
    have htoA1 : toA ∈ insert sender (insert toA S) :=
      Finset.mem_insert_of_mem (Finset.mem_insert_self _ _)
    have hsender2 : sender ∈ insert sender (insert toA S) \ {toA} :=
      Finset.mem_sdiff.mpr ⟨hsender1, by simp [Ne.symm hts]⟩
    refine ⟨insert sender (insert toA S), ?_, ?_⟩
    · intro a ha
      simp only [Finset.mem_insert, not_or] at ha
      obtain ⟨ha1, ha2, ha3⟩ := ha
      show Function.update (debitedBal s sender amount) toA _ a = 0
      rw [Function.update_noteq ha2, debitedBal, Function.update_noteq ha1]
      exact hz a ha3
    · show Finset.sum _
        (Function.update (debitedBal s sender amount) toA
          (debitedBal s sender amount toA + amount)) = s.totalSupply
      rw [Finset.sum_update_of_mem htoA1]
      simp only [debitedBal]
      rw [Function.update_noteq hts, Finset.sum_update_of_mem hsender2]
      have h4 : Finset.sum S s.balanceOf
          = Finset.sum (insert sender (insert toA S)) s.balanceOf :=
        Finset.sum_subset (by intro x hx; simp [hx])
          (by intro x _ hx; exact hz x hx)
      have h5 : Finset.sum (insert sender (insert toA S)) s.balanceOf
          = s.balanceOf toA
            + Finset.sum (insert sender (insert toA S) \ {toA})
                s.balanceOf :=
        Finset.sum_eq_add_sum_diff_singleton htoA1 _
      have h6 : Finset.sum (insert sender (insert toA S) \ {toA}) s.balanceOf
          = s.balanceOf sender
            + Finset.sum ((insert sender (insert toA S) \ {toA}) \ {sender})
                s.balanceOf :=
        Finset.sum_eq_add_sum_diff_singleton hsender2 _
      have heta : (∑ x ∈ (insert sender (insert toA S) \ {toA}) \ {sender},
            s.balanceOf x)
          = Finset.sum ((insert sender (insert toA S) \ {toA}) \ {sender})
              s.balanceOf := rfl
      rw [← hsum, h4, h5, h6, heta]
      omega

/-- `transfer` never writes `totalSupply`. -/
theorem transfer_ok_totalSupply {s : TokenState} {sender toA : Address}
    {amount : Nat} {s' : TokenState} {r : Bool}
    (h : Token.transfer s sender toA amount = .ok (s', r)) :
    s'.totalSupply = s.totalSupply := by
  obtain ⟨_, _, _, hs'⟩ := transfer_ok_inv h
  subst hs'
  rfl

/-- Every reachable token state satisfies the sum invariant, with a
bounded total supply. -/
theorem reachable_inv {s : TokenState} (h : Token.Reachable s) :
    s.sumInvariant ∧ s.totalSupply ≤ UINT256_MAX := by
  induction h with
  | init deployer initialSupply hle =>
      exact ⟨sumInv_constructorFn deployer initialSupply, hle⟩
  | step s sender toA amount s' r hs hstep ih =>
      exact ⟨transfer_ok_sumInv ih.1 hstep,
        (transfer_ok_totalSupply hstep) ▸ ih.2⟩

/-- Closed form of a transaction-level `inc`. -/
theorem execInc_eq (v : Nat) :
    Counter.execInc v =
      if v + 1 ≤ UINT256_MAX then (v + 1, [.Increment 1], none)
      else (v, [], some .OverflowError) := by
  unfold Counter.execInc Counter.inc
  rcases le_or_lt (v + 1) UINT256_MAX with h | h
  · rw [checkedAdd_of_le h, if_pos h]
  · rw [checkedAdd_of_gt h, if_neg (Nat.not_le.mpr h)]

/-- Closed form of a transaction-level `incBy` with nonzero amount. -/
theorem execIncBy_eq (v a : Nat) (ha : a ≠ 0) :
    Counter.execIncBy v a =
      if v + a ≤ UINT256_MAX then (v + a, [.Increment a], none)
      else (v, [], some .OverflowError) := by
  unfold Counter.execIncBy Counter.incBy
  rcases le_or_lt (v + a) UINT256_MAX with h | h
  · rw [if_neg ha, checkedAdd_of_le h, if_pos h]
  · rw [if_neg ha, checkedAdd_of_gt h, if_neg (Nat.not_le.mpr h)]

/-- Closed form of a transaction-level `dec`. -/
theorem execDec_eq (v : Nat) :
    Counter.execDec v =
      if v = 0 then (0, [], some .UnderflowError) else (v - 1, [], none) := by
  unfold Counter.execDec Counter.dec
  by_cases h : v = 0
  · subst h; rfl
  · rw [if_neg h, if_neg h]

/-! ## The claims -/

/-- Claim C1: for every counter value `v` and amount `a > 0`,
`incBy(a)` succeeds when `v + a ≤ 2^256 - 1`, leaving the counter at
`v + a` and emitting exactly one `Increment(a)` event; when
`v + a > 2^256 - 1` it fails with `OverflowError` and the counter
remains `v`. -/
theorem claim_C1 (v a : Nat) (ha : 0 < a) :
    (v + a ≤ UINT256_MAX →
      Counter.execIncBy v a = (v + a, [Event.Increment a], none)) ∧
    (UINT256_MAX < v + a →
      Counter.execIncBy v a = (v, [], some EvmError.OverflowError)) := by
  have ha' : a ≠ 0 := Nat.pos_iff_ne_zero.mp ha
  constructor
  · intro h
    rw [execIncBy_eq v a ha', if_pos h]
  · intro h
    rw [execIncBy_eq v a ha', if_neg (Nat.not_le.mpr h)]

theorem claim_C1_witness :
    Counter.execIncBy 5 10 = (15, [Event.Increment 10], none) :=
  (claim_C1 5 10 (by decide)).1 (by decide)

/-- Claim C4: `dec` on counter value `0` fails with `UnderflowError`
and leaves the counter at `0`; on `v > 0` it succeeds, yields `v - 1`,
and emits no event. -/
theorem claim_C4 (v : Nat) :
    (v = 0 → Counter.execDec v = (0, [], some EvmError.UnderflowError)) ∧
    (0 < v → Counter.execDec v = (v - 1, [], none)) := by
  constructor
  · intro h
    subst h
    rfl
  · intro h
    rw [execDec_eq, if_neg (Nat.pos_iff_ne_zero.mp h)]

theorem claim_C4_witness :
    Counter.execDec 0 = (0, [], some EvmError.UnderflowError) ∧
    Counter.execDec 5 = (4, [], none) :=
  ⟨(claim_C4 0).1 rfl, (claim_C4 5).2 (by decide)⟩

/-- Claim C5: `incBy(0)` always fails with `InvalidArgumentError`; the
counter is unchanged and no event is emitted. -/
theorem claim_C5 (v : Nat) :
    Counter.execIncBy v 0 = (v, [], some EvmError.InvalidArgumentError) := rfl

/-- Claim C3: `transfer(to, amount)` with sender balance below `amount`
fails with `InsufficientBalanceError` and the whole token state — in
particular both the sender's and the recipient's balances — is
unchanged. -/
theorem claim_C3 (s : TokenState) (sender toA : Address) (amount : Nat)
    (h : s.balanceOf sender < amount) :
    Token.execTransfer s sender toA amount
      = (s, false, some EvmError.InsufficientBalanceError) := by
  unfold Token.execTransfer
  rw [transfer_def, if_pos h]

theorem claim_C3_witness :
    Token.execTransfer (Token.constructorFn 0 5) 0 1 7
      = (Token.constructorFn 0 5, false,
         some EvmError.InsufficientBalanceError) :=
  claim_C3 (Token.constructorFn 0 5) 0 1 7 (by decide)

/-- Claim C9: a self-transfer of any amount up to the sender's balance
succeeds, returns `true`, and leaves every balance unchanged. -/
theorem claim_C9 (s : TokenState) (sender : Address) (amount : Nat)
    (hmax : s.balanceOf sender ≤ UINT256_MAX)
    (ha : amount ≤ s.balanceOf sender) :
    (Token.execTransfer s sender sender amount).2.1 = true ∧
    (Token.execTransfer s sender sender amount).2.2 = none ∧
    ∀ a, (Token.execTransfer s sender sender amount).1.balanceOf a
      = s.balanceOf a := by
  have hd : debitedBal s sender amount sender + amount ≤ UINT256_MAX := by
    rw [debitedBal, Function.update_same, Nat.sub_add_cancel ha]
    exact hmax
  rcases transfer_cases s sender sender amount
      with ⟨hlt, _⟩ | ⟨_, ⟨_, heq⟩ | ⟨hgt, _⟩⟩
  · exact absurd hlt (Nat.not_lt.mpr ha)
  · obtain ⟨_, _, hb⟩ := transfer_self_ok_inv heq
    unfold Token.execTransfer
    rw [heq]
    exact ⟨rfl, rfl, hb⟩
  · exact absurd hd (Nat.not_le.mpr hgt)

theorem claim_C9_witness :
    (Token.execTransfer (Token.constructorFn 0 5) 0 0 3).2.1 = true ∧
    (Token.execTransfer (Token.constructorFn 0 5) 0 0 3).2.2 = none ∧
    ∀ a, (Token.execTransfer (Token.constructorFn 0 5) 0 0 3).1.balanceOf a
      = (Token.constructorFn 0 5).balanceOf a :=
  claim_C9 (Token.constructorFn 0 5) 0 3 (by decide) (by decide)

/-- Claim C2 is false as stated: it quantifies over every recipient,
including the sender itself, and demands final sender balance
`b - amount` together with recipient balance `old_to + amount`.  On a
self-transfer the code leaves the balance at `b`.  Concretely: a
freshly constructed token (deployer `0`, supply `5`, a reachable
state), `transfer(0, 3)` sent from `0` succeeds yet leaves the balance
at `5`, not `5 - 3`. -/
theorem claim_C2_counterexample :
    Token.Reachable (Token.constructorFn 0 5) ∧
    3 ≤ (Token.constructorFn 0 5).balanceOf 0 ∧
    (Token.execTransfer (Token.constructorFn 0 5) 0 0 3).2.2 = none ∧
    ¬ ((Token.execTransfer (Token.constructorFn 0 5) 0 0 3).1.balanceOf 0
        = (Token.constructorFn 0 5).balanceOf 0 - 3) :=
  ⟨Token.Reachable.init 0 5 (by decide), by decide, by decide, by decide⟩

/-- Claim C2, amended: for every *reachable* token pre-state, every
sender with balance `b`, every recipient `to` *distinct from the
sender*, and every amount with `b ≥ amount`, `transfer(to, amount)`
succeeds (returning `true`) and yields sender balance `b - amount` and
recipient balance `old_to + amount`.  (Reachability rules out
unconstructible states whose balances sum past `2^256 - 1`, where the
credit would overflow; the self-transfer case is settled separately.) -/
theorem claim_C2 (s : TokenState) (hreach : Token.Reachable s)
    (sender toA : Address) (amount : Nat) (hne : toA ≠ sender)
    (hb : amount ≤ s.balanceOf sender) :
    (Token.execTransfer s sender toA amount).2.1 = true ∧
    (Token.execTransfer s sender toA amount).2.2 = none ∧
    (Token.execTransfer s sender toA amount).1.balanceOf sender
      = s.balanceOf sender - amount ∧
    (Token.execTransfer s sender toA amount).1.balanceOf toA
      = s.balanceOf toA + amount := by
  obtain ⟨⟨S, hz, hsum⟩, hts⟩ := reachable_inv hreach
  have hdeb : debitedBal s sender amount toA = s.balanceOf toA := by
    rw [debitedBal, Function.update_noteq hne]
  have hle : debitedBal s sender amount toA + amount ≤ UINT256_MAX := by
    rw [hdeb]
    calc s.balanceOf toA + amount
        ≤ s.balanceOf toA + s.balanceOf sender := Nat.add_le_add_left hb _
      _ ≤ Finset.sum S s.balanceOf := pair_le_sum hne hz
      _ = s.totalSupply := hsum
      _ ≤ UINT256_MAX := hts
  rcases transfer_cases s sender toA amount
      with ⟨hlt, _⟩ | ⟨_, ⟨_, heq⟩ | ⟨hgt, _⟩⟩
  · exact absurd hlt (Nat.not_lt.mpr hb)
  · unfold Token.execTransfer
    rw [heq]
    refine ⟨rfl, rfl, ?_, ?_⟩
    · show Function.update (debitedBal s sender amount) toA
          (debitedBal s sender amount toA + amount) sender
        = s.balanceOf sender - amount
      rw [Function.update_noteq (Ne.symm hne), debitedBal,
        Function.update_same]
    · show Function.update (debitedBal s sender amount) toA
          (debitedBal s sender amount toA + amount) toA
        = s.balanceOf toA + amount
      rw [Function.update_same, hdeb]
  · exact absurd hle (Nat.not_le.mpr hgt)

theorem claim_C2_witness :
    (Token.execTransfer (Token.constructorFn 0 100) 0 1 30).2.1 = true ∧
    (Token.execTransfer (Token.constructorFn 0 100) 0 1 30).2.2 = none ∧
    (Token.execTransfer (Token.constructorFn 0 100) 0 1 30).1.balanceOf 0
      = (Token.constructorFn 0 100).balanceOf 0 - 30 ∧
    (Token.execTransfer (Token.constructorFn 0 100) 0 1 30).1.balanceOf 1
      = (Token.constructorFn 0 100).balanceOf 1 + 30 :=
  claim_C2 (Token.constructorFn 0 100)
    (Token.Reachable.init 0 100 (by decide)) 0 1 30 (by decide) (by decide)

/-- Concrete vault scenario: vault at address `1` holding `10` tokens,
caller `2` holding `5`, no prior deposits. -/
def vaultW : VaultState :=
  { token :=
      { totalSupply := 15
        balanceOf := fun a => if a = 1 then 10 else if a = 2 then 5 else 0 }
    deposits := fun _ => 0 }

/-- Claim C8: when `TokenVault.deposit(amount)` by a caller holding at
least `amount` tokens succeeds, the caller's token balance is
unchanged, `deposits[caller]` grows by exactly `amount`, and in fact no
token balance moves at all: the inner `token.transfer(address(this),
amount)` runs with the vault as `msg.sender`, so it debits and credits
the vault's own balance. -/
theorem claim_C8 (vaultAddr caller : Address) (s : VaultState) (amount : Nat)
    (hbal : amount ≤ s.token.balanceOf caller)
    (hok : (TokenVault.execDeposit vaultAddr s caller amount).2 = none) :
    (TokenVault.execDeposit vaultAddr s caller amount).1.token.balanceOf
        caller
      = s.token.balanceOf caller ∧
    (TokenVault.execDeposit vaultAddr s caller amount).1.deposits caller
      = s.deposits caller + amount ∧
    ∀ a, (TokenVault.execDeposit vaultAddr s caller amount).1.token.balanceOf
        a
      = s.token.balanceOf a := by
  have hnl := Nat.not_lt.mpr hbal
  cases htr : Token.transfer s.token vaultAddr vaultAddr amount with
  | error e =>
      exfalso
      unfold TokenVault.execDeposit TokenVault.deposit at hok
      rw [if_neg hnl, htr] at hok
      exact absurd hok (by simp)
  | ok p =>
      obtain ⟨t', r⟩ := p
      cases hca : checkedAdd (s.deposits caller) amount with
      | error e =>
          exfalso
          unfold TokenVault.execDeposit TokenVault.deposit at hok
          rw [if_neg hnl, htr, hca] at hok
          exact absurd hok (by simp)
      | ok d' =>
          obtain ⟨hd, _⟩ := checkedAdd_ok hca
          subst hd
          obtain ⟨_, _, hbmap⟩ := transfer_self_ok_inv htr
          unfold TokenVault.execDeposit TokenVault.deposit
          rw [if_neg hnl, htr, hca]
          refine ⟨hbmap caller, ?_, hbmap⟩
          show Function.update s.deposits caller
              (s.deposits caller + amount) caller
            = s.deposits caller + amount
          rw [Function.update_same]

theorem claim_C8_witness :
    (TokenVault.execDeposit 1 vaultW 2 3).1.token.balanceOf 2
      = vaultW.token.balanceOf 2 ∧
    (TokenVault.execDeposit 1 vaultW 2 3).1.deposits 2
      = vaultW.deposits 2 + 3 ∧
    ∀ a, (TokenVault.execDeposit 1 vaultW 2 3).1.token.balanceOf a
      = vaultW.token.balanceOf a :=
  claim_C8 1 2 vaultW 3 (by decide) (by decide)

/-- Claim C10: the sum of all entries of `balanceOf` equals
`totalSupply` right after construction, the invariant is preserved by
every `transfer` call whether it succeeds or reverts, and `transfer`
never changes `totalSupply`. -/
theorem claim_C10 :
    (∀ deployer initialSupply : Nat,
      (Token.constructorFn deployer initialSupply).sumInvariant) ∧
    (∀ (s : TokenState) (sender toA : Address) (amount : Nat),
      s.sumInvariant →
      ((Token.execTransfer s sender toA amount).1).sumInvariant) ∧
    (∀ (s : TokenState) (sender toA : Address) (amount : Nat),
      (Token.execTransfer s sender toA amount).1.totalSupply
        = s.totalSupply) := by
  refine ⟨sumInv_constructorFn, ?_, ?_⟩
  · intro s sender toA amount hinv
    cases htr : Token.transfer s sender toA amount with
    | error e =>
        unfold Token.execTransfer
        rw [htr]
        exact hinv
    | ok p =>
        obtain ⟨s', r⟩ := p
        unfold Token.execTransfer
        rw [htr]
        exact transfer_ok_sumInv hinv htr
  · intro s sender toA amount
    cases htr : Token.transfer s sender toA amount with
    | error e =>
        unfold Token.execTransfer
        rw [htr]
    | ok p =>
        obtain ⟨s', r⟩ := p
        unfold Token.execTransfer
        rw [htr]
        exact transfer_ok_totalSupply htr

theorem claim_C10_witness :
    ((Token.execTransfer (Token.constructorFn 0 5) 0 1 2).1).sumInvariant :=
  claim_C10.2.1 (Token.constructorFn 0 5) 0 1 2 (claim_C10.1 0 5)

/-- Claim C6: for every operation of the two contracts and every
in-range pre-state, results stay within `[0, 2^256 - 1]`; moreover every
addition that would pass the upper bound and every subtraction that
would go below zero is an actual computation failure — the operation
returns an error and the state is exactly the pre-state, never a
silently wrapped value.  Conjuncts: (1) counter results are in range and
a failed counter operation rolls back; (2) `inc` at the upper bound
fails with `OverflowError`, counter unchanged; (3) `incBy` past the
upper bound fails with `OverflowError`, counter unchanged, no event;
(4) `dec` below zero fails with `UnderflowError`, counter unchanged;
(5) a `transfer` debit that would go below zero fails (via the guard)
with `InsufficientBalanceError`, state unchanged; (6) a `transfer`
credit past the upper bound fails with `OverflowError`, state
unchanged; (7) token balances stay in range and a failed `transfer`
rolls back the whole state. -/
theorem claim_C6 :
    (∀ v a : Nat, v ≤ UINT256_MAX →
      ((Counter.execInc v).1 ≤ UINT256_MAX ∧
        ((Counter.execInc v).2.2.isSome → (Counter.execInc v).1 = v)) ∧
      ((Counter.execIncBy v a).1 ≤ UINT256_MAX ∧
        ((Counter.execIncBy v a).2.2.isSome
          → (Counter.execIncBy v a).1 = v)) ∧
      ((Counter.execDec v).1 ≤ UINT256_MAX ∧
        ((Counter.execDec v).2.2.isSome → (Counter.execDec v).1 = v))) ∧
    (∀ v : Nat, UINT256_MAX < v + 1 →
      Counter.execInc v = (v, [], some EvmError.OverflowError)) ∧
    (∀ v a : Nat, 0 < a → UINT256_MAX < v + a →
      Counter.execIncBy v a = (v, [], some EvmError.OverflowError)) ∧
    (∀ v : Nat, v = 0 →
      Counter.execDec v = (0, [], some EvmError.UnderflowError)) ∧
    (∀ (s : TokenState) (sender toA : Address) (amount : Nat),
      s.balanceOf sender < amount →
      Token.execTransfer s sender toA amount
        = (s, false, some EvmError.InsufficientBalanceError)) ∧
    (∀ (s : TokenState) (sender toA : Address) (amount : Nat),
      amount ≤ s.balanceOf sender →
      UINT256_MAX < debitedBal s sender amount toA + amount →
      Token.execTransfer s sender toA amount
        = (s, false, some EvmError.OverflowError)) ∧
    (∀ (s : TokenState) (sender toA : Address) (amount : Nat),
      (∀ x, s.balanceOf x ≤ UINT256_MAX) →
      (∀ x, (Token.execTransfer s sender toA amount).1.balanceOf x
          ≤ UINT256_MAX) ∧
      ((Token.execTransfer s sender toA amount).2.2.isSome →
        (Token.execTransfer s sender toA amount).1 = s)) := by
  refine ⟨?_, ?_, ?_, ?_, ?_, ?_, ?_⟩
  · intro v a hv
    refine ⟨?_, ?_, ?_⟩
    · rw [execInc_eq]
      rcases le_or_lt (v + 1) UINT256_MAX with h | h
      · rw [if_pos h]
        exact ⟨h, fun hs => absurd hs (by simp)⟩
      · rw [if_neg (Nat.not_le.mpr h)]
        exact ⟨hv, fun _ => rfl⟩
    · by_cases ha : a = 0
      · subst ha
        exact ⟨hv, fun _ => rfl⟩
      · rw [execIncBy_eq v a ha]
        rcases le_or_lt (v + a) UINT256_MAX with h | h
        · rw [if_pos h]
          exact ⟨h, fun hs => absurd hs (by simp)⟩
        · rw [if_neg (Nat.not_le.mpr h)]
          exact ⟨hv, fun _ => rfl⟩
    · rw [execDec_eq]
      by_cases h : v = 0
      · rw [if_pos h]
        exact ⟨Nat.zero_le _, fun _ => h.symm⟩
      · rw [if_neg h]
        exact ⟨le_trans (Nat.sub_le _ _) hv, fun hs => absurd hs (by simp)⟩
  · intro v h
    rw [execInc_eq, if_neg (Nat.not_le.mpr h)]
  · intro v a ha h
    rw [execIncBy_eq v a (Nat.pos_iff_ne_zero.mp ha),
      if_neg (Nat.not_le.mpr h)]
  · intro v h
    subst h
    rfl
  · intro s sender toA amount h
    unfold Token.execTransfer
    rw [transfer_def, if_pos h]
  · intro s sender toA amount hge hgt
    rcases transfer_cases s sender toA amount
        with ⟨hlt, _⟩ | ⟨_, ⟨hle, _⟩ | ⟨_, heq⟩⟩
    · exact absurd hlt (Nat.not_lt.mpr hge)
    · exact absurd hle (Nat.not_le.mpr hgt)
    · unfold Token.execTransfer
      rw [heq]
  · intro s sender toA amount hb
    rcases transfer_cases s sender toA amount
        with ⟨_, heq⟩ | ⟨_, ⟨hle, heq⟩ | ⟨_, heq⟩⟩
    · unfold Token.execTransfer
      rw [heq]
      exact ⟨hb, fun _ => rfl⟩
    · unfold Token.execTransfer
      rw [heq]
      refine ⟨?_, fun hs => absurd hs (by simp)⟩
      intro x
      show Function.update (debitedBal s sender amount) toA
          (debitedBal s sender amount toA + amount) x ≤ UINT256_MAX
      by_cases hx : x = toA
      · subst hx
        rw [Function.update_same]
        exact hle
      · rw [Function.update_noteq hx]
        by_cases hxs : x = sender
        · subst hxs
          rw [debitedBal, Function.update_same]
          exact le_trans (Nat.sub_le _ _) (hb x)
        · rw [debitedBal, Function.update_noteq hxs]
          exact hb x
    · unfold Token.execTransfer
      rw [heq]
      exact ⟨hb, fun _ => rfl⟩

/-- A token state at the representable extreme: every account holds
`2^256 - 1`, so any nonzero credit to another account overflows. -/
def maxedTok : TokenState :=
  { totalSupply := 0, balanceOf := fun _ => UINT256_MAX }

theorem claim_C6_witness :
    (Counter.execInc 3).1 ≤ UINT256_MAX ∧
    Counter.execInc UINT256_MAX
      = (UINT256_MAX, [], some EvmError.OverflowError) ∧
    Counter.execIncBy UINT256_MAX 1
      = (UINT256_MAX, [], some EvmError.OverflowError) ∧
    Counter.execDec 0 = (0, [], some EvmError.UnderflowError) ∧
    Token.execTransfer (Token.constructorFn 0 5) 0 1 7
      = (Token.constructorFn 0 5, false,
         some EvmError.InsufficientBalanceError) ∧
    Token.execTransfer maxedTok 0 1 1
      = (maxedTok, false, some EvmError.OverflowError) ∧
    (∀ x, (Token.execTransfer (Token.constructorFn 0 5) 0 1 2).1.balanceOf x
      ≤ UINT256_MAX) :=
  ⟨((claim_C6.1 3 0 (by decide)).1).1,
   claim_C6.2.1 UINT256_MAX (by decide),
   claim_C6.2.2.1 UINT256_MAX 1 (by decide) (by decide),
   claim_C6.2.2.2.1 0 rfl,
   claim_C6.2.2.2.2.1 (Token.constructorFn 0 5) 0 1 7 (by decide),
   claim_C6.2.2.2.2.2.1 maxedTok 0 1 1 (by decide) (by decide),
   (claim_C6.2.2.2.2.2.2 (Token.constructorFn 0 5) 0 1 2 (fun x => by
      show (if x = 0 then 5 else 0) ≤ UINT256_MAX
      split <;> decide)).1⟩

/-- Claim C7: every contract method is deterministic — two runs of the
dispatcher from the same state, sender, and transaction produce the
same outcome (state, events, and failure reason). -/
theorem claim_C7 (s : SysState) (sender : Address) (tx : Tx)
    (out₁ out₂ : SysState × List Event × Option EvmError)
    (h₁ : execute s sender tx = out₁) (h₂ : execute s sender tx = out₂) :
    out₁ = out₂ :=
  h₁.symm.trans h₂

theorem claim_C7_witness :
    execute ⟨0, Token.constructorFn 0 5⟩ 0 Tx.inc
      = execute ⟨0, Token.constructorFn 0 5⟩ 0 Tx.inc :=
  claim_C7 ⟨0, Token.constructorFn 0 5⟩ 0 Tx.inc _ _ rfl rfl
